import Mathlib

/-!
Verification of the queue-manager core (`src/manager.js`) of a durable job
queue.  Each JavaScript function that the claims touch is embedded as an
executable Lean definition; store interactions (`db.executeSql`) are passed
in as explicit function arguments, so a theorem about a Manager operation
quantifies over every store behaviour allowed by the store contract.
-/

namespace PgBoss

/-- Model of the JavaScript values the manager handles: `null`, `undefined`,
booleans, (integer) numbers, strings, functions (opaque), arrays and plain
objects. -/
inductive JSVal where
  | vNull
  | vUndef
  | vBool (b : Bool)
  | vNum (n : Int)
  | vStr (s : String)
  | vFunc
  | vArr (elems : List JSVal)
  | vObj (fields : List (String × JSVal))
  deriving Repr, Inhabited

/-- JavaScript truthiness of a value. -/
def jsTruthy : JSVal → Bool
  | .vNull => false
  | .vUndef => false
  | .vBool b => b
  | .vNum n => n != 0
  | .vStr s => s != ""
  | .vFunc => true
  | .vArr _ => true
  | .vObj _ => true

/-- JavaScript `typeof` operator on the modelled values. -/
def typeof : JSVal → String
  | .vNull => "object"
  | .vUndef => "undefined"
  | .vBool _ => "boolean"
  | .vNum _ => "number"
  | .vStr _ => "string"
  | .vFunc => "function"
  | .vArr _ => "object"
  | .vObj _ => "object"

/-- `Array.isArray`. -/
def isArray : JSVal → Bool
  | .vArr _ => true
  | _ => false

/-- JavaScript strict equality with the `null` literal (`data === null`). -/
def isNullJS : JSVal → Bool
  | .vNull => true
  | _ => false

/-- `Array.isArray(id) ? id : [id]` — the id normalization used by
`mapCompletionIdArg`. -/
def normalizeIds (id : JSVal) : List JSVal :=
  match id with
  | .vArr l => l
  | _ => [id]

/-- Modelled from the spec: `Attorney.assertAsync` (attorney.js is not among
the provided sources; only its caller `Manager.mapCompletionIdArg` is).
Per §7 of the spec, validation errors are "rejected before any store
interaction; surfaced ... to the caller as a failed operation", so
`assertAsync(value, message)` rejects with `message` when `value` is falsy
and otherwise resolves. -/
def assertAsync (v : JSVal) (msg : String) : Except String Unit :=
  if jsTruthy v then Except.ok () else Except.error msg

/-- `Manager.mapCompletionIdArg(id, funcName)`: rejects falsy ids via
`Attorney.assertAsync`, normalizes a single id to a one-element list, and
rejects an empty id list via `assert(ids.length, errorMessage)`. -/
def mapCompletionIdArg (id : JSVal) (funcName : String) : Except String (List JSVal) :=
  let errorMessage := funcName ++ "() requires an id"
  match assertAsync id errorMessage with
  | Except.error e => Except.error e
  | Except.ok _ =>
    let ids := normalizeIds id
    if ids.length = 0 then Except.error errorMessage else Except.ok ids

/-- `Manager.mapCompletionDataArg(data)`: `null`/`undefined`/functions are
stored as `null`; a non-array object is stored verbatim; anything else is
wrapped as `{value: data}`. -/
def mapCompletionDataArg (data : JSVal) : JSVal :=
  if isNullJS data || typeof data == "undefined" || typeof data == "function" then
    .vNull
  else if typeof data == "object" && !(isArray data) then
    data
  else
    .vObj [("value", data)]

/-- The `{jobs, requested, updated}` object resolved by
`complete`/`fail`/`cancel`. -/
structure CompletionResponse where
  jobs : List JSVal
  requested : Nat
  updated : Nat
  deriving Repr

/-- `Manager.mapCompletionResponse(ids, result)`. -/
def mapCompletionResponse (ids : List JSVal) (rowCount : Nat) : CompletionResponse :=
  { jobs := ids, requested := ids.length, updated := rowCount }

/-- `Manager.complete(id, data)`.  The store call
`db.executeSql(completeJobsCommand, [ids, data])` is abstracted as
`exec : σ → List JSVal → JSVal → σ × Nat`, returning the updated store state
and the reported row count; on a validation error the store is never
touched, so the state is returned unchanged. -/
def complete {σ : Type} (exec : σ → List JSVal → JSVal → σ × Nat)
    (id data : JSVal) (s : σ) : Except String CompletionResponse × σ :=
  match mapCompletionIdArg id "complete" with
  | Except.error e => (Except.error e, s)
  | Except.ok ids =>
    let r := exec s ids (mapCompletionDataArg data)
    (Except.ok (mapCompletionResponse ids r.2), r.1)

/-- `Manager.fail(id, data)`, same shape as `complete` with the fail
command. -/
def fail {σ : Type} (exec : σ → List JSVal → JSVal → σ × Nat)
    (id data : JSVal) (s : σ) : Except String CompletionResponse × σ :=
  match mapCompletionIdArg id "fail" with
  | Except.error e => (Except.error e, s)
  | Except.ok ids =>
    let r := exec s ids (mapCompletionDataArg data)
    (Except.ok (mapCompletionResponse ids r.2), r.1)

/-- `Manager.cancel(id)`: no data argument is sent to the store. -/
def cancel {σ : Type} (exec : σ → List JSVal → σ × Nat)
    (id : JSVal) (s : σ) : Except String CompletionResponse × σ :=
  match mapCompletionIdArg id "cancel" with
  | Except.error e => (Except.error e, s)
  | Except.ok ids =>
    let r := exec s ids
    (Except.ok (mapCompletionResponse ids r.2), r.1)

/-- Truthiness of an optional number (`undefined` is modelled as `none`). -/
def optIntTruthy : Option Int → Bool
  | some n => n != 0
  | none => false

/-- JavaScript `x || y` on optional numbers, as used in
`options.batchSize || options.teamSize`. -/
def jsOrOpt (x y : Option Int) : Option Int :=
  if optIntTruthy x then x else y

/-- JavaScript `batchSize || 1` — the second query parameter of
`Manager.fetch`. -/
def effectiveFetchArg (batchSize : Option Int) : Int :=
  match batchSize with
  | some b => if b != 0 then b else 1
  | none => 1

/-- Result shape of `Manager.fetch`: `null`, a single job object, or an
array of jobs. -/
inductive FetchResult where
  | jnull
  | single (job : JSVal)
  | batch (jobs : List JSVal)
  deriving Repr

/-- The row-mapping step of `Manager.fetch`:
`rows.length === 0 ? null : rows.length === 1 && !batchSize ? rows[0] : rows`. -/
def fetchMapRows (rows : List JSVal) (batchSize : Option Int) : FetchResult :=
  match rows with
  | [] => FetchResult.jnull
  | [j] => if optIntTruthy batchSize then FetchResult.batch [j] else FetchResult.single j
  | _ => FetchResult.batch rows

/-- `Manager.fetch(name, batchSize)` with the store's
`claimNext`/`fetchNextJob` query abstracted as `claimRows`, a function from
the requested batch limit (`batchSize || 1`) to the list of claimed rows.
`Attorney.checkFetchArgs` (argument validation, out of scope per §1) is
assumed to pass. -/
def fetch (claimRows : Int → List JSVal) (batchSize : Option Int) : FetchResult :=
  fetchMapRows (claimRows (effectiveFetchArg batchSize)) batchSize

/-- `options.batchSize = options.batchSize || options.teamSize` from
`Manager.watch`. -/
def watchBatchSize (batchSize teamSize : Option Int) : Option Int :=
  jsOrOpt batchSize teamSize

/-- The subscription registry: name → worker id (the worker itself is
opaque to the claims).  `Manager.watch` begins with
`assert(!(name in this.subscriptions), ...)` and otherwise stores the new
worker under `name`. -/
def watchRegister (subs : List (String × Nat)) (name : String) (workerId : Nat) :
    Except String (List (String × Nat)) :=
  if (subs.lookup name).isSome then
    Except.error "this job has already been subscribed on this instance."
  else
    Except.ok ((name, workerId) :: subs)

/-- The publish option `startIn` as the code sees it: a number, a string, the
`null` literal, or absent (`undefined`). -/
inductive StartIn where
  | num (n : Int)
  | str (s : String)
  | nullv
  | absent
  deriving Repr, DecidableEq

/-- The publish options consumed by `Manager.createJob`.  A `none` field is
an absent (`undefined`) option. -/
structure PublishOptions where
  startIn : StartIn := StartIn.absent
  retryLimit : Option Int := none
  expireIn : Option String := none
  priority : Option Int := none
  singletonKey : Option String := none
  singletonSeconds : Option Int := none
  singletonMinutes : Option Int := none
  singletonHours : Option Int := none
  singletonDays : Option Int := none
  singletonNextSlot : Bool := false
  deriving Repr, DecidableEq

/-- The `startIn` ternary of `createJob`:
`(options.startIn > 0) ? '' + options.startIn : (typeof options.startIn === 'string') ? options.startIn : '0'`.
For a string both reachable branches produce the string itself (JavaScript
coerces `s > 0`, and `'' + s` is `s`), so the coercion needs no model. -/
def startInClause : StartIn → String
  | StartIn.num n => if 0 < n then toString n else "0"
  | StartIn.str s => s
  | StartIn.nullv => "0"
  | StartIn.absent => "0"

/-- JavaScript `x > 0` on an optional number (`undefined > 0` is false). -/
def posOpt : Option Int → Bool
  | some n => if 0 < n then true else false
  | none => false

/-- The `singletonSeconds` resolution chain of `createJob`: seconds, then
minutes × 60, then hours × 3600, then days × 86400, each guarded by `> 0`;
otherwise `null`. -/
def resolveSingletonSeconds (o : PublishOptions) : Option Int :=
  if posOpt o.singletonSeconds then o.singletonSeconds
  else if posOpt o.singletonMinutes then o.singletonMinutes.map (fun m => m * 60)
  else if posOpt o.singletonHours then o.singletonHours.map (fun h => h * 60 * 60)
  else if posOpt o.singletonDays then o.singletonDays.map (fun d => d * 60 * 60 * 24)
  else none

/-- JavaScript `x || 0` on an optional number (used for `retryLimit` and
`priority`; for numbers this is `0` exactly when the option is absent or
already `0`). -/
def orZeroInt : Option Int → Int
  | some n => n
  | none => 0

/-- JavaScript `options.expireIn || '15 minutes'`. -/
def expireInClause : Option String → String
  | some s => if s != "" then s else "15 minutes"
  | none => "15 minutes"

/-- JavaScript `options.singletonKey || null`. -/
def singletonKeyClause : Option String → Option String
  | some s => if s != "" then some s else none
  | none => none

/-- The parameter array handed to `db.executeSql(insertJobCommand, values)`:
`[id, name, priority, retryLimit, startIn, expireIn, data, singletonKey, singletonSeconds, singletonOffset]`. -/
structure InsertValues where
  id : String
  name : String
  priority : Int
  retryLimit : Int
  startIn : String
  expireIn : String
  data : JSVal
  singletonKey : Option String
  singletonSeconds : Option Int
  singletonOffset : Int
  deriving Repr

/-- One insert attempt of `createJob`: the options and offset argument it
ran with, and the values array it sent to the store. -/
structure InsertAttempt where
  options : PublishOptions
  offsetArg : Option Int
  values : InsertValues
  deriving Repr

/-- The values array built by `createJob` before its insert, for the given
call arguments.  `id` comes from the injected unique-id generator, indexed
by the attempt number. -/
def insertValuesOf (name : String) (data : JSVal) (options : PublishOptions)
    (singletonOffset : Option Int) (idGen : Nat → String) (attempt : Nat) : InsertValues :=
  { id := idGen attempt
    name := name
    priority := orZeroInt options.priority
    retryLimit := orZeroInt options.retryLimit
    startIn := startInClause options.startIn
    expireIn := expireInClause options.expireIn
    data := data
    singletonKey := singletonKeyClause options.singletonKey
    singletonSeconds := resolveSingletonSeconds options
    singletonOffset := singletonOffset.getD 0 }

/-- The option mutation `createJob` performs before its dedup retry:
`options.startIn = singletonSeconds; options.singletonNextSlot = false`. -/
def retryOptions (options : PublishOptions) (singletonSeconds : Option Int) : PublishOptions :=
  { options with
      startIn := match singletonSeconds with
                 | some s => StartIn.num s
                 | none => StartIn.nullv
      singletonNextSlot := false }

/-- `Manager.createJob(name, data, options, singletonOffset)`.  The store's
insert (`db.executeSql(insertJobCommand, values)`) is abstracted as
`insertRowCount`, mapping the attempt number and values array to the
reported `rowCount`.  Returns the resolved value (`some id` on success,
`none` for a silently dropped duplicate) together with the trace of insert
attempts actually issued. -/
def createJob (name : String) (data : JSVal) (options : PublishOptions)
    (singletonOffset : Option Int) (idGen : Nat → String) (attempt : Nat)
    (insertRowCount : Nat → InsertValues → Nat) :
    Except String (Option String) × List InsertAttempt :=
  let values := insertValuesOf name data options singletonOffset idGen attempt
  let att : InsertAttempt := ⟨options, singletonOffset, values⟩
  if insertRowCount attempt values = 1 then
    (Except.ok (some values.id), [att])
  else if options.singletonNextSlot = false then
    (Except.ok none, [att])
  else
    let ss := resolveSingletonSeconds options
    let r := createJob name data (retryOptions options ss) ss idGen (attempt + 1) insertRowCount
    (r.1, att :: r.2)
termination_by (if options.singletonNextSlot then 1 else 0)
decreasing_by simp_all [retryOptions]

/-- `Manager.publish(name, data, options)` after `Attorney.checkPublishArgs`
(argument validation, out of scope per §1) has resolved the arguments:
delegates to `createJob` with no `singletonOffset` (`undefined`). -/
def publish (name : String) (data : JSVal) (options : PublishOptions)
    (idGen : Nat → String) (insertRowCount : Nat → InsertValues → Nat) :
    Except String (Option String) × List InsertAttempt :=
  createJob name data options none idGen 0 insertRowCount

/-! ### Helper lemmas -/

lemma mapCompletionIdArg_invalid (id : JSVal) (fn : String)
    (h : jsTruthy id = false ∨ id = JSVal.vArr []) :
    mapCompletionIdArg id fn = Except.error (fn ++ "() requires an id") := by
  rcases h with h | h
  · simp [mapCompletionIdArg, assertAsync, h]
  · subst h
    simp [mapCompletionIdArg, assertAsync, jsTruthy, normalizeIds]

lemma normalizeIds_ne_nil (id : JSVal) (hne : id ≠ JSVal.vArr []) :
    normalizeIds id ≠ [] := by
  cases id with
  | vArr l =>
    intro h
    apply hne
    simp only [normalizeIds] at h
    rw [h]
  | vNull => simp [normalizeIds]
  | vUndef => simp [normalizeIds]
  | vBool b => simp [normalizeIds]
  | vNum n => simp [normalizeIds]
  | vStr s => simp [normalizeIds]
  | vFunc => simp [normalizeIds]
  | vObj f => simp [normalizeIds]

lemma mapCompletionIdArg_valid (id : JSVal) (fn : String)
    (htruthy : jsTruthy id = true) (hne : id ≠ JSVal.vArr []) :
    mapCompletionIdArg id fn = Except.ok (normalizeIds id) := by
  have hlen : (normalizeIds id).length ≠ 0 :=
    fun h => normalizeIds_ne_nil id hne (List.length_eq_zero.mp h)
  simp [mapCompletionIdArg, assertAsync, htruthy, hlen]

/-! ### Theorems for the claims -/

/-- C10: a completion/failure payload that is an array is wrapped as
`{value: array}` by `mapCompletionDataArg` before being stored (arrays are
neither `null`/`undefined`/functions nor non-array objects, so they fall
into the wrapping branch). -/
theorem array_payload_wrapped (l : List JSVal) :
    mapCompletionDataArg (JSVal.vArr l) = JSVal.vObj [("value", JSVal.vArr l)] := by
  simp [mapCompletionDataArg, isNullJS, typeof, isArray]

/-- C5: `mapCompletionDataArg` stores a `null`/absent/callable payload as
`null`, a (non-array) object verbatim, and wraps any scalar value `v` as
`{value: v}`. -/
theorem completion_data_normalization (data : JSVal) :
    ((data = JSVal.vNull ∨ data = JSVal.vUndef ∨ data = JSVal.vFunc) →
       mapCompletionDataArg data = JSVal.vNull) ∧
    (∀ fields, data = JSVal.vObj fields → mapCompletionDataArg data = data) ∧
    (((∃ b, data = JSVal.vBool b) ∨ (∃ n, data = JSVal.vNum n) ∨
        (∃ s, data = JSVal.vStr s)) →
       mapCompletionDataArg data = JSVal.vObj [("value", data)]) := by
  refine ⟨?_, ?_, ?_⟩
  · rintro (rfl | rfl | rfl) <;> rfl
  · rintro fields rfl
    rfl
  · rintro (⟨b, rfl⟩ | ⟨n, rfl⟩ | ⟨s, rfl⟩) <;> rfl

/-- Witness for C5 at the scalar payload `3`. -/
theorem completion_data_normalization_witness :
    mapCompletionDataArg (JSVal.vNum 3) = JSVal.vObj [("value", JSVal.vNum 3)] :=
  (completion_data_normalization (JSVal.vNum 3)).2.2 (Or.inr (Or.inl ⟨3, rfl⟩))

/-- C9: `complete`, `fail` and `cancel` with a falsy id or an empty id array
reject with `<op>() requires an id` and leave the store state untouched. -/
theorem completion_requires_id {σ : Type} (execC execF : σ → List JSVal → JSVal → σ × Nat)
    (execX : σ → List JSVal → σ × Nat) (id data : JSVal) (s : σ)
    (h : jsTruthy id = false ∨ id = JSVal.vArr []) :
    complete execC id data s = (Except.error "complete() requires an id", s) ∧
    fail execF id data s = (Except.error "fail() requires an id", s) ∧
    cancel execX id s = (Except.error "cancel() requires an id", s) := by
  refine ⟨?_, ?_, ?_⟩
  · simp [complete, mapCompletionIdArg_invalid id "complete" h]
  · simp [fail, mapCompletionIdArg_invalid id "fail" h]
  · simp [cancel, mapCompletionIdArg_invalid id "cancel" h]

/-- Witness for C9: cancelling with a `null` id. -/
theorem completion_requires_id_witness :
    complete (fun (s : Nat) _ _ => (s + 1, 1)) JSVal.vNull JSVal.vNull 7 =
      (Except.error "complete() requires an id", 7) ∧
    fail (fun (s : Nat) _ _ => (s + 1, 1)) JSVal.vNull JSVal.vNull 7 =
      (Except.error "fail() requires an id", 7) ∧
    cancel (fun (s : Nat) _ => (s + 1, 1)) JSVal.vNull 7 =
      (Except.error "cancel() requires an id", 7) :=
  completion_requires_id (fun s _ _ => (s + 1, 1)) (fun s _ _ => (s + 1, 1))
    (fun s _ => (s + 1, 1)) JSVal.vNull JSVal.vNull 7 (Or.inl rfl)

/-- C4: with a non-empty id or id list, `complete`, `fail` and `cancel`
resolve to `{jobs, requested, updated}` where `jobs` is the normalized id
list, `requested` is the number of ids given, and `updated` is the row
count reported by the store (unconstrained, so it may be less than
`requested`). -/
theorem completion_response_shape {σ : Type} (execC execF : σ → List JSVal → JSVal → σ × Nat)
    (execX : σ → List JSVal → σ × Nat) (id data : JSVal) (s : σ)
    (htruthy : jsTruthy id = true) (hne : id ≠ JSVal.vArr []) :
    (complete execC id data s).1 =
      Except.ok { jobs := normalizeIds id, requested := (normalizeIds id).length,
                  updated := (execC s (normalizeIds id) (mapCompletionDataArg data)).2 } ∧
    (fail execF id data s).1 =
      Except.ok { jobs := normalizeIds id, requested := (normalizeIds id).length,
                  updated := (execF s (normalizeIds id) (mapCompletionDataArg data)).2 } ∧
    (cancel execX id s).1 =
      Except.ok { jobs := normalizeIds id, requested := (normalizeIds id).length,
                  updated := (execX s (normalizeIds id)).2 } := by
  refine ⟨?_, ?_, ?_⟩
  · simp [complete, mapCompletionIdArg_valid id "complete" htruthy hne, mapCompletionResponse]
  · simp [fail, mapCompletionIdArg_valid id "fail" htruthy hne, mapCompletionResponse]
  · simp [cancel, mapCompletionIdArg_valid id "cancel" htruthy hne, mapCompletionResponse]

/-- Witness for C4: completing a two-element id list against a store that
reports one updated row. -/
theorem completion_response_shape_witness :
    (complete (fun (s : Nat) _ _ => (s + 1, 1))
        (JSVal.vArr [JSVal.vStr "a", JSVal.vStr "b"]) JSVal.vNull 0).1 =
      Except.ok { jobs := [JSVal.vStr "a", JSVal.vStr "b"], requested := 2, updated := 1 } ∧
    (fail (fun (s : Nat) _ _ => (s + 1, 1))
        (JSVal.vArr [JSVal.vStr "a", JSVal.vStr "b"]) JSVal.vNull 0).1 =
      Except.ok { jobs := [JSVal.vStr "a", JSVal.vStr "b"], requested := 2, updated := 1 } ∧
    (cancel (fun (s : Nat) _ => (s + 1, 1))
        (JSVal.vArr [JSVal.vStr "a", JSVal.vStr "b"]) 0).1 =
      Except.ok { jobs := [JSVal.vStr "a", JSVal.vStr "b"], requested := 2, updated := 1 } :=
  completion_response_shape (fun s _ _ => (s + 1, 1)) (fun s _ _ => (s + 1, 1))
    (fun s _ => (s + 1, 1)) (JSVal.vArr [JSVal.vStr "a", JSVal.vStr "b"]) JSVal.vNull 0
    rfl (by simp)

/-- C3: under the store contract that `claimNext` returns at most the
requested number of rows, `fetch` with no `batchSize` queries with limit 1
and returns a single job (one row) or `null` (zero rows); `fetch` with a
`batchSize ≥ 1` returns `null` on an empty result and otherwise the array
of returned rows, whose length is at most `batchSize`. -/
theorem fetch_batch_contract (claimRows : Int → List JSVal)
    (hcontract : ∀ k, 1 ≤ k → ((claimRows k).length : Int) ≤ k) :
    ((fetch claimRows none = FetchResult.jnull ∧ claimRows 1 = []) ∨
      (∃ j, claimRows 1 = [j] ∧ fetch claimRows none = FetchResult.single j)) ∧
    (∀ b : Int, 1 ≤ b →
      (claimRows b = [] → fetch claimRows (some b) = FetchResult.jnull) ∧
      (claimRows b ≠ [] →
        fetch claimRows (some b) = FetchResult.batch (claimRows b) ∧
          ((claimRows b).length : Int) ≤ b)) := by
  constructor
  · have h1 := hcontract 1 le_rfl
    match h : claimRows 1 with
    | [] =>
      left
      exact ⟨by simp [fetch, effectiveFetchArg, fetchMapRows, h], rfl⟩
    | [j] =>
      right
      exact ⟨j, rfl, by simp [fetch, effectiveFetchArg, fetchMapRows, h, optIntTruthy]⟩
    | j1 :: j2 :: rest =>
      rw [h] at h1
      simp only [List.length_cons] at h1
      omega
  · intro b hb
    have hb0 : (b != 0) = true := by
      simp only [bne_iff_ne, ne_eq]
      omega
    have harg : effectiveFetchArg (some b) = b := by
      simp [effectiveFetchArg, hb0]
    constructor
    · intro h
      simp [fetch, harg, fetchMapRows, h]
    · intro h
      refine ⟨?_, hcontract b hb⟩
      match hr : claimRows b with
      | [] => exact absurd hr h
      | [j] => simp [fetch, harg, fetchMapRows, hr, optIntTruthy, hb0]
      | j1 :: j2 :: rest => simp [fetch, harg, fetchMapRows, hr]

/-- Witness for C3: with one claimable job, `fetch` with `batchSize = 5`
returns a one-element array; with an empty store, `fetch` with no
`batchSize` returns `null`. -/
theorem fetch_batch_contract_witness :
    fetch (fun _ => [JSVal.vStr "j1"]) (some 5) = FetchResult.batch [JSVal.vStr "j1"] ∧
    fetch (fun _ => ([] : List JSVal)) none = FetchResult.jnull := by
  constructor
  · exact (((fetch_batch_contract (fun _ => [JSVal.vStr "j1"])
      (fun k hk => by simpa using hk)).2 5 (by decide)).2 (by simp)).1
  · have h := (fetch_batch_contract (fun _ => ([] : List JSVal))
      (fun k hk => by simp only [List.length_nil, Int.natCast_zero]; omega)).1
    exact (h.resolve_right (by rintro ⟨j, hj, _⟩; cases hj)).1

/-- C6: a subscription whose options omit `batchSize` polls the store with
`teamSize` when a nonzero `teamSize` is present, and with 1 otherwise
(`options.batchSize = options.batchSize || options.teamSize` in `watch`,
then `batchSize || 1` in `fetch`). -/
theorem subscribe_batch_default (teamSize : Option Int) :
    (∀ t, teamSize = some t → t ≠ 0 →
      effectiveFetchArg (watchBatchSize none teamSize) = t) ∧
    (teamSize = none → effectiveFetchArg (watchBatchSize none teamSize) = 1) := by
  constructor
  · rintro t rfl ht
    simp [watchBatchSize, jsOrOpt, optIntTruthy, effectiveFetchArg, ht]
  · rintro rfl
    rfl

/-- Witness for C6 at `teamSize = 4` and at an absent `teamSize`. -/
theorem subscribe_batch_default_witness :
    effectiveFetchArg (watchBatchSize none (some 4)) = 4 ∧
    effectiveFetchArg (watchBatchSize none none) = 1 :=
  ⟨(subscribe_batch_default (some 4)).1 4 rfl (by decide),
   (subscribe_batch_default none).2 rfl⟩

lemma lookup_none_of_not_key (subs : List (String × Nat)) (name : String)
    (h : (subs.lookup name).isSome = false) : name ∉ subs.map Prod.fst := by
  induction subs with
  | nil => simp
  | cons p rest ih =>
    obtain ⟨k, v⟩ := p
    by_cases hk : (name == k)
    · simp [List.lookup, hk] at h
    · simp only [List.lookup, hk] at h
      have hne : name ≠ k := by
        simpa using (bne_iff_ne (a := name) (b := k)).mp (by simpa using hk)
      simp [hne, ih h]

/-- C7: `watch` (the body of `subscribe`/`onComplete`) rejects a name that
is already registered, leaving the registry as it was, and a successful
registration stores exactly the new worker under `name`, changes no other
name, and preserves the at-most-one-Poller-per-name invariant. -/
theorem single_subscriber (subs : List (String × Nat)) (name : String) (wid : Nat) :
    ((subs.lookup name).isSome →
      watchRegister subs name wid =
        Except.error "this job has already been subscribed on this instance.") ∧
    (∀ subs2, watchRegister subs name wid = Except.ok subs2 →
      subs2.lookup name = some wid ∧
      (∀ m, m ≠ name → subs2.lookup m = subs.lookup m) ∧
      ((subs.map Prod.fst).Nodup → (subs2.map Prod.fst).Nodup)) := by
  constructor
  · intro h
    simp [watchRegister, h]
  · intro subs2 h
    by_cases hs : (subs.lookup name).isSome
    · simp [watchRegister, hs] at h
    · simp only [watchRegister, hs, Bool.false_eq_true, if_neg, ite_false] at h
      rw [Except.ok.injEq] at h
      subst h
      refine ⟨by simp [List.lookup], ?_, ?_⟩
      · intro m hm
        have hb : (m == name) = false := beq_eq_false_iff_ne.mpr hm
        simp [List.lookup, hb]
      · intro hnd
        rw [Bool.not_eq_true] at hs
        simp only [List.map_cons, List.nodup_cons]
        exact ⟨lookup_none_of_not_key subs name hs, hnd⟩

/-- Witness for C7: a registry holding `email` rejects a second `email`
subscription, and registering `report` in an empty registry stores it and
keeps the registry keys duplicate-free. -/
theorem single_subscriber_witness :
    watchRegister [("email", 5)] "email" 9 =
      Except.error "this job has already been subscribed on this instance." ∧
    ([("report", 3)] : List (String × Nat)).lookup "report" = some 3 ∧
    (([("report", 3)] : List (String × Nat)).map Prod.fst).Nodup := by
  refine ⟨(single_subscriber [("email", 5)] "email" 9).1 (by decide), ?_, ?_⟩
  · exact ((single_subscriber [] "report" 3).2 [("report", 3)] rfl).1
  · exact ((single_subscriber [] "report" 3).2 [("report", 3)] rfl).2.2 (by simp)

/-- C8: `singletonSeconds` resolves to the first provided singleton window
option, scaled to seconds, in the order seconds, minutes, hours, days, and
to `null` when none is provided — assuming every provided option is
positive (argument validation is upstream; the code guards each step with
`> 0`). -/
theorem singleton_seconds_resolution (o : PublishOptions)
    (hs : ∀ x, o.singletonSeconds = some x → 0 < x)
    (hm : ∀ x, o.singletonMinutes = some x → 0 < x)
    (hh : ∀ x, o.singletonHours = some x → 0 < x)
    (hd : ∀ x, o.singletonDays = some x → 0 < x) :
    resolveSingletonSeconds o =
      match o.singletonSeconds, o.singletonMinutes, o.singletonHours, o.singletonDays with
      | some x, _, _, _ => some x
      | none, some x, _, _ => some (x * 60)
      | none, none, some x, _ => some (x * 60 * 60)
      | none, none, none, some x => some (x * 60 * 60 * 24)
      | none, none, none, none => none := by
  rcases h1 : o.singletonSeconds with _ | x1
  · rcases h2 : o.singletonMinutes with _ | x2
    · rcases h3 : o.singletonHours with _ | x3
      · rcases h4 : o.singletonDays with _ | x4
        · simp [resolveSingletonSeconds, posOpt, h1, h2, h3, h4]
        · simp [resolveSingletonSeconds, posOpt, h1, h2, h3, h4, hd x4 h4]
      · simp [resolveSingletonSeconds, posOpt, h1, h2, h3, hh x3 h3]
    · simp [resolveSingletonSeconds, posOpt, h1, h2, hm x2 h2]
  · simp [resolveSingletonSeconds, posOpt, h1, hs x1 h1]

/-- Witness for C8: only `singletonMinutes = 2` provided resolves to 120
seconds. -/
theorem singleton_seconds_resolution_witness :
    resolveSingletonSeconds { singletonMinutes := some 2 } = some 120 := by
  have h := singleton_seconds_resolution { singletonMinutes := some 2 }
    (fun x hx => by simp at hx) (fun x hx => by simp at hx; omega)
    (fun x hx => by simp at hx) (fun x hx => by simp at hx)
  simpa using h

@[simp] lemma retryOptions_nextSlot (o : PublishOptions) (ss : Option Int) :
    (retryOptions o ss).singletonNextSlot = false := rfl

lemma createJob_trace_noslot (name : String) (data : JSVal) (options : PublishOptions)
    (off : Option Int) (idGen : Nat → String) (att : Nat)
    (out : Nat → InsertValues → Nat) (hns : options.singletonNextSlot = false) :
    createJob name data options off idGen att out =
      (if out att (insertValuesOf name data options off idGen att) = 1 then
         Except.ok (some (insertValuesOf name data options off idGen att).id)
       else Except.ok none,
       [⟨options, off, insertValuesOf name data options off idGen att⟩]) := by
  rw [createJob.eq_def]
  by_cases h : out att (insertValuesOf name data options off idGen att) = 1 <;>
    simp [h, hns]

lemma createJob_trace_len_le_two (name : String) (data : JSVal) (options : PublishOptions)
    (off : Option Int) (idGen : Nat → String) (att : Nat)
    (out : Nat → InsertValues → Nat) :
    ((createJob name data options off idGen att out).2).length ≤ 2 := by
  rw [createJob.eq_def]
  by_cases h1 : out att (insertValuesOf name data options off idGen att) = 1
  · simp [h1]
  · by_cases h2 : options.singletonNextSlot = false
    · simp [h1, h2]
    · simp only [h1, h2, if_false, ite_false]
      rw [createJob_trace_noslot _ _ _ _ _ _ _ (retryOptions_nextSlot _ _)]
      simp

theorem dedup_retry_once (name : String) (data : JSVal) (options : PublishOptions)
    (singletonOffset : Option Int) (idGen : Nat → String)
    (insertRowCount : Nat → InsertValues → Nat)
    (hconflict : ∀ v, insertRowCount 0 v = 0)
    (hslot : options.singletonNextSlot = true) :
    (∃ a1 a2,
      (createJob name data options singletonOffset idGen 0 insertRowCount).2 = [a1, a2] ∧
      a2.options.singletonNextSlot = false ∧
      a2.options.startIn = (match resolveSingletonSeconds options with
                            | some s => StartIn.num s
                            | none => StartIn.nullv) ∧
      a2.offsetArg = resolveSingletonSeconds options) ∧
    (∀ (options2 : PublishOptions) (off2 : Option Int) (att2 : Nat)
      (rc2 : Nat → InsertValues → Nat),
      ((createJob name data options2 off2 idGen att2 rc2).2).length ≤ 2) := by
  refine ⟨?_, fun options2 off2 att2 rc2 =>
    createJob_trace_len_le_two name data options2 off2 idGen att2 rc2⟩
  rw [createJob.eq_def]
  simp only [hconflict, hslot, Nat.zero_ne_one, if_false, Bool.true_eq_false, ite_false]
  rw [createJob_trace_noslot _ _ _ _ _ _ _ (retryOptions_nextSlot _ _)]
  exact ⟨_, _, rfl, rfl, rfl, rfl⟩

theorem publish_conflict_null (name : String) (data : JSVal) (options : PublishOptions)
    (idGen : Nat → String) (insertRowCount : Nat → InsertValues → Nat)
    (hconflict : ∀ v, insertRowCount 0 v = 0)
    (hns : options.singletonNextSlot = false) :
    (publish name data options idGen insertRowCount).1 = Except.ok none := by
  unfold publish
  rw [createJob.eq_def]
  simp [hconflict, hns]

theorem dedup_retry_once_witness :
    ∃ a1 a2,
      (createJob "email" JSVal.vNull
          { singletonKey := some "k", singletonSeconds := some 60, singletonNextSlot := true }
          none (fun n => toString n) 0 (fun _ _ => 0)).2 = [a1, a2] ∧
      a2.options.singletonNextSlot = false ∧
      a2.options.startIn = StartIn.num 60 ∧
      a2.offsetArg = some 60 := by
  have h := (dedup_retry_once "email" JSVal.vNull
      { singletonKey := some "k", singletonSeconds := some 60, singletonNextSlot := true }
      none (fun n => toString n) (fun _ _ => 0) (fun _ => rfl) rfl).1
  have hrs : resolveSingletonSeconds
      { singletonKey := some "k", singletonSeconds := some 60, singletonNextSlot := true } =
      some 60 := rfl
  rw [hrs] at h
  obtain ⟨a1, a2, h1, h2, h3, h4⟩ := h
  exact ⟨a1, a2, h1, h2, h3, h4⟩

theorem publish_conflict_null_witness :
    (publish "email" JSVal.vNull { singletonKey := some "k", singletonSeconds := some 60 }
        (fun n => toString n) (fun _ _ => 0)).1 = Except.ok none :=
  publish_conflict_null "email" JSVal.vNull
    { singletonKey := some "k", singletonSeconds := some 60 }
    (fun n => toString n) (fun _ _ => 0) (fun _ => rfl) rfl

end PgBoss
